import Mathlib

/-!
# Verification of the devbox dependency-locking core

Shallow embedding of `internal/lock/lockfile.go` and `internal/plugin/github.go`.

Modelling conventions:
* Go strings are modelled as Lean `String`s; byte-level operations (`len`,
  slicing, `strings.Contains`, `strings.HasPrefix`) are modelled over the
  character list `String.data` (exact for ASCII inputs).
* Go maps `map[string]*Package` are modelled as association lists with
  lookup / insert-or-replace helpers; iteration order is irrelevant to every
  property proved here.
* Effectful collaborators (the external package resolver
  `FetchResolvedPackage`, the content hasher `cachehash.JSON`, the structured
  file decoder `cuecfg.ParseFile`, `time.ParseDuration`, and the HTTP
  transport) are modelled as explicit function parameters (oracles), and the
  number of invocations of the resolver / transport is returned alongside the
  result so that "does not invoke the resolver / network" is a provable
  statement.
* `File.Resolve` and `File.Stdenv` are mutually recursive in the source (the
  legacy branch of `Resolve` calls `Stdenv`, which calls `Resolve` on the base
  reference).  The recursion is modelled with an explicit fuel parameter;
  exhausted fuel makes the embedded `Stdenv` fall back to the unlocked base
  reference, mirroring the fact that the source only terminates when the
  recursion bottoms out in a cached or non-legacy entry.
-/

namespace Devbox

/-! ## Character-list string helpers (Go `strings` package operations) -/

/-- Go `strings.Cut(s, sep)` for a single-character separator: split at the
first occurrence of `sep`; `none` when `sep` does not occur. -/
def cutChar (sep : Char) : List Char → Option (List Char × List Char)
  | [] => none
  | c :: t =>
    if c = sep then some ([], t)
    else (cutChar sep t).map (fun p => (c :: p.1, p.2))

/-- Go `strings.SplitN(s, " ", 2)`: at most two pieces, split at the first
space. -/
def splitN2 (s : List Char) : List (List Char) :=
  match cutChar ' ' s with
  | none => [s]
  | some (a, b) => [a, b]

/-- A run of `n` mask characters, Go `strings.Repeat("*", n)`. -/
def starsL (n : Nat) : List Char := List.replicate n '*'

/-! ## Package classification

`searcher.ParseVersionedPackage`, `pkgtype.IsRunX` and `pkgtype.IsFlake` are
code of this repository that is not under `src/`; they are modelled from the
spec (§4.2): RunX specs carry a reserved registry-tool prefix, versioned specs
match `name@version`-style syntax, and flake specs are scheme-qualified
strings (e.g. `path:`, `github:`). -/

/-- Modelled from the spec: the reserved registry-tool prefix of RunX package
specs. -/
def runXPrefix : String := "runx:"

/-- Modelled from the spec: a spec is RunX when it carries the reserved
registry-tool prefix (`pkgtype.IsRunX`). -/
def isRunX (s : String) : Bool := runXPrefix.data.isPrefixOf s.data

/-- Modelled from the spec: `searcher.ParseVersionedPackage` recognises
`name@version`-style syntax — a first `@` with a non-empty name before it and
a non-empty version after it. -/
def parseVersionedPackage (s : String) : Option (String × String) :=
  match cutChar '@' s.data with
  | none => none
  | some (n, v) => if n ≠ [] ∧ v ≠ [] then some (⟨n⟩, ⟨v⟩) else none

/-- Modelled from the spec: the scheme prefixes that make a string parse as a
flake reference. -/
def flakeSchemes : List String := ["path", "github", "git", "tarball", "file"]

/-- Modelled from the spec: a flake reference is serializable to/from a single
string form; the structured fields' grammar is not given, so the model keeps
the whole reference string, validated to be scheme-qualified by `parseRef`. -/
structure Ref where
  str : String
deriving DecidableEq, Repr

/-- Modelled from the spec: the scheme under which a string parses as a flake
reference, when any. -/
def schemeOf (s : String) : Option String :=
  flakeSchemes.find? (fun sch => (sch ++ ":").data.isPrefixOf s.data)

/-- Modelled from the spec: `flake.ParseRef` succeeds exactly on
scheme-qualified strings. -/
def parseRef (s : String) : Except String Ref :=
  match schemeOf s with
  | some _ => .ok ⟨s⟩
  | none => .error "invalid flake reference"

/-- Modelled from the spec: `pkgtype.IsFlake` — the spec parses as a flake
reference. -/
def isFlake (s : String) : Bool := (schemeOf s).isSome

/-- Modelled from the spec: an `Installable` is a flake reference plus an
attribute path, serialized to a single string form. -/
def installableStr (r : Ref) (attrPath : String) : String :=
  r.str ++ "#" ++ attrPath

/-- Embedded `IsLegacyPackage` (lockfile.go): not versioned, no scheme separator, not
an absolute filesystem path. -/
def IsLegacyPackage (pkg : String) : Bool :=
  !(parseVersionedPackage pkg).isSome &&
    !pkg.data.contains ':' &&
    !"/".data.isPrefixOf pkg.data

/-- The four spec classes of §4.2, as written in the classification table:
RunX. -/
def classRunX (s : String) : Bool := isRunX s

/-- Spec class: versioned (`name@version`-style and not RunX). -/
def classVersioned (s : String) : Bool :=
  (parseVersionedPackage s).isSome && !isRunX s

/-- Spec class: flake (parses as a flake reference). -/
def classFlake (s : String) : Bool := isFlake s

/-- Spec class: legacy (`IsLegacyPackage`). -/
def classLegacy (s : String) : Bool := IsLegacyPackage s

/-- Number of spec classes matching a spec string. -/
def classCount (s : String) : Nat :=
  (if classRunX s then 1 else 0) + (if classVersioned s then 1 else 0) +
    (if classFlake s then 1 else 0) + (if classLegacy s then 1 else 0)

/-- The condition of `Resolve`'s first dispatch branch:
`pkgtype.IsRunX(pkg) || versioned || pkgtype.IsFlake(pkg)`. -/
def fetchBranch (s : String) : Bool :=
  isRunX s || (parseVersionedPackage s).isSome || isFlake s

/-- Predicate: `Resolve` takes the legacy branch: first branch failed, spec is legacy. -/
def legacyBranch (s : String) : Bool := !fetchBranch s && IsLegacyPackage s

/-- Predicate: `Resolve` takes no resolution branch: the entry is left unresolved. -/
def unresolvedBranch (s : String) : Bool := !fetchBranch s && !IsLegacyPackage s

/-- Number of dispatch branches of `Resolve` taken by a spec string. -/
def branchCount (s : String) : Nat :=
  (if fetchBranch s then 1 else 0) + (if legacyBranch s then 1 else 0) +
    (if unresolvedBranch s then 1 else 0)

/-! Disjointness helper lemmas. -/

theorem mem_of_isPrefixOf {l p : List Char} {c : Char}
    (hp : p.isPrefixOf l = true) (hc : c ∈ p) : c ∈ l := by
  rw [List.isPrefixOf_iff_prefix] at hp
  exact hp.subset hc

theorem contains_colon_of_isRunX {s : String} (h : isRunX s = true) :
    s.data.contains ':' = true := by
  unfold isRunX at h
  have : ':' ∈ s.data := mem_of_isPrefixOf h (by decide)
  simpa [List.contains] using this

theorem contains_colon_of_isFlake {s : String} (h : isFlake s = true) :
    s.data.contains ':' = true := by
  unfold isFlake schemeOf at h
  rw [Option.isSome_iff_exists] at h
  obtain ⟨sch, hsch⟩ := h
  have hpre := List.find?_some hsch
  have hmem := List.mem_of_find?_eq_some hsch
  have hcol : ':' ∈ (sch ++ ":").data := by
    have : (sch ++ ":").data = sch.data ++ [':'] := by
      simp [String.data_append]
    rw [this]
    simp
  have : ':' ∈ s.data := mem_of_isPrefixOf hpre hcol
  simpa [List.contains] using this

theorem legacy_not_versioned {s : String} (h : IsLegacyPackage s = true) :
    (parseVersionedPackage s).isSome = false := by
  unfold IsLegacyPackage at h
  simp only [Bool.and_eq_true, Bool.not_eq_true'] at h
  exact h.1.1

theorem legacy_no_colon {s : String} (h : IsLegacyPackage s = true) :
    s.data.contains ':' = false := by
  unfold IsLegacyPackage at h
  simp only [Bool.and_eq_true, Bool.not_eq_true'] at h
  exact h.1.2

theorem classLegacy_disjoint (s : String) :
    (classLegacy s && classRunX s) = false ∧
      (classLegacy s && classVersioned s) = false ∧
      (classLegacy s && classFlake s) = false := by
  cases hl : classLegacy s
  · simp
  · have hl' : IsLegacyPackage s = true := hl
    refine ⟨?_, ?_, ?_⟩
    · cases hr : classRunX s
      · simp
      · have := contains_colon_of_isRunX (s := s) hr
        rw [legacy_no_colon hl'] at this
        exact absurd this (by simp)
    · cases hv : classVersioned s
      · simp
      · have hv' : (parseVersionedPackage s).isSome = true := by
          unfold classVersioned at hv
          exact (Bool.and_eq_true _ _ |>.mp hv).1
        rw [legacy_not_versioned hl'] at hv'
        exact absurd hv' (by simp)
    · cases hf : classFlake s
      · simp
      · have := contains_colon_of_isFlake (s := s) hf
        rw [legacy_no_colon hl'] at this
        exact absurd this (by simp)

theorem branchCount_eq_one (s : String) : branchCount s = 1 := by
  unfold branchCount legacyBranch unresolvedBranch
  cases hf : fetchBranch s <;> cases hl : IsLegacyPackage s <;> simp

/-! ## Lock store data model

`Package`, `SystemInfo` and `Output` are declared in repository code that is
not under `src/`; they are modelled from the spec (§3). -/

/-- Modelled from the spec: an output of a built package (`Output{name, path}`). -/
structure Output where
  name : String := ""
  path : String := ""
deriving DecidableEq, Repr

/-- Modelled from the spec: per-architecture information — a legacy
single-path field, the outputs list, and the transient (never persisted) flag
recording that the outputs were derived from the legacy field. -/
structure SystemInfo where
  StorePath : String := ""
  Outputs : List Output := []
  outputIsFromStorePath : Bool := false
deriving DecidableEq, Repr

/-- Modelled from the spec: a locked package entry (`resolved`, `source`,
`allowInsecure`, per-system info).  The Go zero value `&Package{}` is the
default instance. -/
structure Package where
  Resolved : String := ""
  Source : String := ""
  AllowInsecure : Bool := false
  Systems : List (String × SystemInfo) := []
deriving DecidableEq, Repr

/-- Modelled from the spec: the `source` tag of legacy packages resolved
against the nixpkgs pin (`nixpkgSource`). -/
def nixpkgSource : String := "nixpkg"

/-- The narrow project-context capability used by the lock store
(`devboxProject`): project directory, unlocked base environment reference,
and the declared-plus-removed-trigger package names. -/
structure DevboxProject where
  projectDir : String := ""
  stdenv : Ref := ⟨""⟩
  allPackageNamesIncludingRemovedTriggerPackages : List String := []
deriving DecidableEq, Repr

/-- The lock `File` (lockfile.go): embedded project capability, lockfile
version, and the packages map keyed by the raw spec strings, modelled as an
association list. -/
structure File where
  project : DevboxProject := {}
  LockFileVersion : String := ""
  packages : List (String × Package) := []
deriving DecidableEq, Repr

/-- Go map read `f.Packages[pkg]`: first entry with the given key. -/
def lookupPkg : List (String × Package) → String → Option Package
  | [], _ => none
  | (a, b) :: t, k => if a = k then some b else lookupPkg t k

/-- Go map write `f.Packages[pkg] = v`: replace the entry or append it. -/
def setPkg : List (String × Package) → String → Package → List (String × Package)
  | [], k, v => [(k, v)]
  | (a, b) :: t, k, v => if a = k then (k, v) :: t else (a, b) :: setPkg t k v

theorem lookupPkg_setPkg_self (l : List (String × Package)) (k : String)
    (v : Package) : lookupPkg (setPkg l k v) k = some v := by
  induction l with
  | nil => simp [setPkg, lookupPkg]
  | cons hd t ih =>
    obtain ⟨a, b⟩ := hd
    by_cases h : a = k
    · simp [setPkg, lookupPkg, h]
    · simp [setPkg, lookupPkg, h, ih]

/-- Map write `f.Packages[pkg] = v` at the `File` level. -/
def setFilePkg (f : File) (pkg : String) (v : Package) : File :=
  { f with packages := setPkg f.packages pkg v }

/-- The guard of `Resolve`'s fast path: `hasEntry && entry.Resolved != ""`,
returning the cached entry when it passes. -/
def cachedEntry (f : File) (pkg : String) : Option Package :=
  match lookupPkg f.packages pkg with
  | some entry => if entry.Resolved ≠ "" then some entry else none
  | none => none

/-! ## Resolve and Stdenv

`FetchResolvedPackage` is repository code not under `src/`; it is modelled
from the spec as an oracle `fetch : String → Except String (Option Package)`
("delegate to the external resolver; store whatever it returns (may
legitimately be empty/no-op ...)", §4.1).  Every resolution function returns
`(result, updated file, number of resolver invocations)`. -/

/-- One step of `Resolve` (lockfile.go lines 76–106), with the call to
`f.Stdenv()` in the legacy branch abstracted as `stdenvOf`. -/
def resolveStep (fetch : String → Except String (Option Package))
    (stdenvOf : File → Ref × File × Nat) (f : File) (pkg : String) :
    Except String Package × File × Nat :=
  match cachedEntry f pkg with
  | some entry => (.ok entry, f, 0)
  | none =>
    if isRunX pkg || (parseVersionedPackage pkg).isSome || isFlake pkg then
      match fetch pkg with
      | .error err => (.error err, f, 1)
      | .ok none => (.ok {}, setFilePkg f pkg {}, 1)
      | .ok (some resolved) => (.ok resolved, setFilePkg f pkg resolved, 1)
    else if IsLegacyPackage pkg then
      let su := stdenvOf f
      let locked : Package :=
        { Resolved := installableStr su.1 pkg, Source := nixpkgSource }
      (.ok locked, setFilePkg su.2.1 pkg locked, su.2.2)
    else
      (.ok {}, setFilePkg f pkg {}, 0)

/-- The body of `Stdenv` (lockfile.go lines 161–172) over a given resolver:
resolve the unlocked base reference; on resolution or parse failure fall back
to the unlocked reference. -/
def stdenvBody
    (resolve : File → String → Except String Package × File × Nat)
    (f : File) : Ref × File × Nat :=
  let unlocked := f.project.stdenv
  match resolve f unlocked.str with
  | (.error _, f', n) => (unlocked, f', n)
  | (.ok pkg, f', n) =>
    match parseRef pkg.Resolved with
    | .error _ => (unlocked, f', n)
    | .ok ref => (ref, f', n)

/-- Fueled `Resolve`: at fuel 0 the embedded `Stdenv` falls back to the
unlocked reference (the Go code would recurse forever in that situation). -/
def resolveF (fetch : String → Except String (Option Package)) :
    Nat → File → String → Except String Package × File × Nat
  | 0, f, pkg => resolveStep fetch (fun g => (g.project.stdenv, g, 0)) f pkg
  | fuel + 1, f, pkg => resolveStep fetch (stdenvBody (resolveF fetch fuel)) f pkg

/-- Fueled `Stdenv` (lockfile.go lines 161–172). -/
def stdenvF (fetch : String → Except String (Option Package)) :
    Nat → File → Ref × File × Nat
  | 0, f => (f.project.stdenv, f, 0)
  | fuel + 1, f => stdenvBody (resolveF fetch fuel) f

theorem resolveF_eq_step (fetch : String → Except String (Option Package))
    (fuel : Nat) (f : File) (pkg : String) :
    resolveF fetch fuel f pkg =
      resolveStep fetch (stdenvF fetch fuel) f pkg := by
  cases fuel <;> rfl

theorem cachedEntry_eq_some {f : File} {pkg : String} {e : Package}
    (h : cachedEntry f pkg = some e) :
    lookupPkg f.packages pkg = some e ∧ e.Resolved ≠ "" := by
  unfold cachedEntry at h
  split at h
  next entry heq =>
    split at h
    next hne =>
      cases h
      exact ⟨heq, hne⟩
    next => cases h
  next => cases h

theorem cachedEntry_of_lookup {f : File} {pkg : String} {e : Package}
    (h : lookupPkg f.packages pkg = some e) (hne : e.Resolved ≠ "") :
    cachedEntry f pkg = some e := by
  unfold cachedEntry
  rw [h]
  simp [hne]

theorem resolveStep_cached {fetch : String → Except String (Option Package)}
    {stdenvOf : File → Ref × File × Nat} {f : File} {pkg : String}
    {e : Package} (h : cachedEntry f pkg = some e) :
    resolveStep fetch stdenvOf f pkg = (.ok e, f, 0) := by
  unfold resolveStep
  rw [h]

theorem resolveStep_ok_lookup {fetch : String → Except String (Option Package)}
    {stdenvOf : File → Ref × File × Nat} {f : File} {pkg : String}
    {p : Package} {f' : File} {n : Nat}
    (h : resolveStep fetch stdenvOf f pkg = (.ok p, f', n)) :
    lookupPkg f'.packages pkg = some p := by
  unfold resolveStep at h
  split at h
  next entry heq =>
    simp only [Prod.mk.injEq, Except.ok.injEq] at h
    obtain ⟨rfl, rfl, rfl⟩ := h
    exact (cachedEntry_eq_some heq).1
  next =>
    split at h
    · split at h
      next => simp at h
      next =>
        simp only [Prod.mk.injEq, Except.ok.injEq] at h
        obtain ⟨rfl, rfl, rfl⟩ := h
        simp only [setFilePkg]
        exact lookupPkg_setPkg_self ..
      next resolved =>
        simp only [Prod.mk.injEq, Except.ok.injEq] at h
        obtain ⟨rfl, rfl, rfl⟩ := h
        simp only [setFilePkg]
        exact lookupPkg_setPkg_self ..
    · split at h
      next =>
        simp only [Prod.mk.injEq, Except.ok.injEq] at h
        obtain ⟨rfl, rfl, rfl⟩ := h
        simp only [setFilePkg]
        exact lookupPkg_setPkg_self ..
      next =>
        simp only [Prod.mk.injEq, Except.ok.injEq] at h
        obtain ⟨rfl, rfl, rfl⟩ := h
        simp only [setFilePkg]
        exact lookupPkg_setPkg_self ..

theorem resolveStep_error_frame {fetch : String → Except String (Option Package)}
    {stdenvOf : File → Ref × File × Nat} {f : File} {pkg : String}
    {e : String} {f' : File} {n : Nat}
    (h : resolveStep fetch stdenvOf f pkg = (.error e, f', n)) : f' = f := by
  unfold resolveStep at h
  split at h
  next => simp at h
  next =>
    split at h
    · split at h
      next =>
        simp only [Prod.mk.injEq, Except.error.injEq] at h
        exact h.2.1.symm
      next => simp at h
      next => simp at h
    · split at h
      next => simp at h
      next => simp at h

/-! Concrete fixtures used by the witnesses and counterexamples. -/

/-- A resolver oracle that always fails. -/
def fetchErrOracle : String → Except String (Option Package) :=
  fun _ => .error "resolver failure"

/-- A resolver oracle that legitimately returns no package (the spec allows
this for flakes with no extra metadata). -/
def fetchNoneOracle : String → Except String (Option Package) :=
  fun _ => .ok none

/-- A fresh lock file with no entries. -/
def emptyLockFile : File :=
  { project :=
      { projectDir := "/proj"
        stdenv := ⟨"github:NixOS/nixpkgs"⟩
        allPackageNamesIncludingRemovedTriggerPackages := [] }
    LockFileVersion := "1"
    packages := [] }

/-- A lock file whose base environment reference is already locked in the
packages map. -/
def stdenvLockedFile : File :=
  { emptyLockFile with
    packages :=
      [("github:NixOS/nixpkgs",
        { Resolved := "github:NixOS/nixpkgs/abc123", Source := "" })] }

/-- A lock file holding one fully resolved entry for a versioned spec. -/
def resolvedEntryFile : File :=
  { emptyLockFile with
    packages :=
      [("python3@3.10",
        { Resolved := "github:NixOS/nixpkgs/abc#python3",
          Source := "devbox-search" })] }

/-- C1 (amended): `Resolve` returns an already-resolved cached entry without
invoking the external resolver, and once a call returns a package with a
non-empty resolved field, an immediately repeated call returns the identical
package with zero resolver invocations. -/
theorem resolve_idempotent_for_resolved_entries
    (fetch : String → Except String (Option Package)) (fuel fuel' : Nat)
    (f : File) (pkg : String) :
    (∀ entry, lookupPkg f.packages pkg = some entry → entry.Resolved ≠ "" →
        resolveF fetch fuel f pkg = (.ok entry, f, 0)) ∧
    (∀ p f' n, resolveF fetch fuel f pkg = (.ok p, f', n) → p.Resolved ≠ "" →
        resolveF fetch fuel' f' pkg = (.ok p, f', 0)) := by
  constructor
  · intro entry hl hne
    rw [resolveF_eq_step]
    exact resolveStep_cached (cachedEntry_of_lookup hl hne)
  · intro p f' n h hne
    rw [resolveF_eq_step] at h
    have hl := resolveStep_ok_lookup h
    rw [resolveF_eq_step]
    exact resolveStep_cached (cachedEntry_of_lookup hl hne)

/-- C1 witness: a cached resolved entry is returned unchanged with zero
resolver invocations, even under a resolver that always fails. -/
theorem resolve_idempotent_for_resolved_entries_witness :
    resolveF fetchErrOracle 1 resolvedEntryFile "python3@3.10" =
      (.ok { Resolved := "github:NixOS/nixpkgs/abc#python3",
             Source := "devbox-search" },
       resolvedEntryFile, 0) :=
  (resolve_idempotent_for_resolved_entries fetchErrOracle 1 1
      resolvedEntryFile "python3@3.10").1
    { Resolved := "github:NixOS/nixpkgs/abc#python3", Source := "devbox-search" }
    rfl (by decide)

/-- C1 counterexample: when the external resolver legitimately returns no
package for a flake spec, the stored entry stays unresolved and a second
`Resolve` call invokes the resolver again — two calls, two resolver
invocations, refuting "at most once". -/
theorem resolve_twice_refetches_unresolved_flake :
    (resolveF fetchNoneOracle 1 emptyLockFile "github:a/b").2.2 = 1 ∧
    (resolveF fetchNoneOracle 1
        (resolveF fetchNoneOracle 1 emptyLockFile "github:a/b").2.1
        "github:a/b").2.2 = 1 ∧
    (resolveF fetchNoneOracle 1
        (resolveF fetchNoneOracle 1 emptyLockFile "github:a/b").2.1
        "github:a/b").1 =
      (resolveF fetchNoneOracle 1 emptyLockFile "github:a/b").1 := by
  refine ⟨rfl, rfl, rfl⟩

/-- C2 counterexample: classification is neither total nor mutually
exclusive — an absolute path without scheme matches no class, while a
scheme-qualified spec containing `@` matches both the versioned and the
flake class. -/
theorem classification_not_total_nor_exclusive :
    classCount "/abs/path" = 0 ∧ classCount "github:a/b@v1.0" = 2 := by
  decide

/-- C2 (amended): the legacy class is disjoint from each of the RunX,
versioned and flake classes, and `Resolve`'s dispatch is deterministic —
every spec takes exactly one of the three branches (external resolver,
legacy resolution, left-unresolved). -/
theorem classification_legacy_disjoint_dispatch_deterministic (s : String) :
    (classLegacy s && classRunX s) = false ∧
      (classLegacy s && classVersioned s) = false ∧
      (classLegacy s && classFlake s) = false ∧
      branchCount s = 1 := by
  obtain ⟨h1, h2, h3⟩ := classLegacy_disjoint s
  exact ⟨h1, h2, h3, branchCount_eq_one s⟩

/-- C3 (amended): when `Resolve` returns without error the resolved (or
empty) entry is in the map; when the external resolver errors, `Resolve`
returns the error and leaves the map unchanged. -/
theorem resolve_writes_entry_on_success_only
    (fetch : String → Except String (Option Package)) (fuel : Nat)
    (f : File) (pkg : String) :
    (∀ p f' n, resolveF fetch fuel f pkg = (.ok p, f', n) →
        lookupPkg f'.packages pkg = some p) ∧
    (∀ e f' n, resolveF fetch fuel f pkg = (.error e, f', n) → f' = f) := by
  constructor
  · intro p f' n h
    rw [resolveF_eq_step] at h
    exact resolveStep_ok_lookup h
  · intro e f' n h
    rw [resolveF_eq_step] at h
    exact resolveStep_error_frame h

/-- C3 witness: a versioned spec resolved to "no package" is still written
into the map before returning. -/
theorem resolve_writes_entry_on_success_only_witness :
    lookupPkg (resolveF fetchNoneOracle 0 emptyLockFile "hello@1.2").2.1.packages
      "hello@1.2" = some {} :=
  (resolve_writes_entry_on_success_only fetchNoneOracle 0 emptyLockFile
      "hello@1.2").1 {} (setFilePkg emptyLockFile "hello@1.2" {}) 1 rfl

/-- C3 counterexample: on a resolver error, `Resolve` returns the error
without writing any entry into the map. -/
theorem resolve_error_leaves_map_unchanged :
    resolveF fetchErrOracle 1 emptyLockFile "github:a/b" =
      (.error "resolver failure", emptyLockFile, 1) ∧
    lookupPkg
        (resolveF fetchErrOracle 1 emptyLockFile "github:a/b").2.1.packages
        "github:a/b" = none := by
  refine ⟨rfl, rfl⟩

/-- C5: a fresh legacy spec resolves to the installable built from the
`Stdenv()` (locked) base reference plus the spec as attribute path, with the
nixpkgs-pin source; in particular, when the base reference is locked in the
map, resolution is against that locked reference, not the unlocked one. -/
theorem resolve_legacy_against_locked_stdenv
    (fetch : String → Except String (Option Package)) (fuel : Nat)
    (f : File) (pkg : String)
    (hleg : IsLegacyPackage pkg = true) (hmiss : cachedEntry f pkg = none) :
    (resolveF fetch fuel f pkg).1 =
      .ok { Resolved := installableStr (stdenvF fetch fuel f).1 pkg,
            Source := nixpkgSource } ∧
    (∀ e ref, lookupPkg f.packages f.project.stdenv.str = some e →
        e.Resolved ≠ "" → parseRef e.Resolved = .ok ref →
        (resolveF fetch (fuel + 1) f pkg).1 =
          .ok { Resolved := installableStr ref pkg,
                Source := nixpkgSource }) := by
  have hrx : isRunX pkg = false := by
    cases h : isRunX pkg
    · rfl
    · have := contains_colon_of_isRunX h
      rw [legacy_no_colon hleg] at this
      cases this
  have hfl : isFlake pkg = false := by
    cases h : isFlake pkg
    · rfl
    · have := contains_colon_of_isFlake h
      rw [legacy_no_colon hleg] at this
      cases this
  have hv := legacy_not_versioned hleg
  constructor
  · rw [resolveF_eq_step]
    simp [resolveStep, hmiss, hrx, hv, hfl, hleg]
  · intro e ref hl hne hpr
    have hres : resolveF fetch fuel f f.project.stdenv.str = (.ok e, f, 0) := by
      rw [resolveF_eq_step]
      exact resolveStep_cached (cachedEntry_of_lookup hl hne)
    have hsu : stdenvF fetch (fuel + 1) f = (ref, f, 0) := by
      show stdenvBody (resolveF fetch fuel) f = (ref, f, 0)
      simp only [stdenvBody]
      rw [hres]
      simp [hpr]
    rw [resolveF_eq_step]
    simp [resolveStep, hmiss, hrx, hv, hfl, hleg, hsu]

/-- C5 witness: spec `"python3"` against a file whose base reference
`github:NixOS/nixpkgs` is locked to `github:NixOS/nixpkgs/abc123` resolves to
the locked installable, not the unlocked one. -/
theorem resolve_legacy_against_locked_stdenv_witness :
    (resolveF fetchErrOracle 1 stdenvLockedFile "python3").1 =
      .ok { Resolved := "github:NixOS/nixpkgs/abc123#python3",
            Source := nixpkgSource } := by
  have h :=
    (resolve_legacy_against_locked_stdenv fetchErrOracle 0 stdenvLockedFile
        "python3" (by decide) rfl).2
      { Resolved := "github:NixOS/nixpkgs/abc123", Source := "" }
      ⟨"github:NixOS/nixpkgs/abc123"⟩ rfl (by decide) rfl
  simpa [installableStr] using h

/-- C10: `Stdenv` is a total function that never surfaces an error — on
resolution failure or parse failure of the resolved string it silently falls
back to the project's unlocked base reference, and otherwise returns the
parsed locked reference. -/
theorem stdenv_total_fallback
    (fetch : String → Except String (Option Package)) (fuel : Nat) (f : File) :
    (∀ e f' n, resolveF fetch fuel f f.project.stdenv.str = (.error e, f', n) →
        (stdenvF fetch (fuel + 1) f).1 = f.project.stdenv) ∧
    (∀ p f' n msg, resolveF fetch fuel f f.project.stdenv.str = (.ok p, f', n) →
        parseRef p.Resolved = .error msg →
        (stdenvF fetch (fuel + 1) f).1 = f.project.stdenv) ∧
    (∀ p f' n ref, resolveF fetch fuel f f.project.stdenv.str = (.ok p, f', n) →
        parseRef p.Resolved = .ok ref →
        (stdenvF fetch (fuel + 1) f).1 = ref) := by
  refine ⟨?_, ?_, ?_⟩
  · intro e f' n h
    show (stdenvBody (resolveF fetch fuel) f).1 = f.project.stdenv
    simp only [stdenvBody]
    rw [h]
  · intro p f' n msg h hp
    show (stdenvBody (resolveF fetch fuel) f).1 = f.project.stdenv
    simp only [stdenvBody]
    rw [h]
    simp [hp]
  · intro p f' n ref h hp
    show (stdenvBody (resolveF fetch fuel) f).1 = ref
    simp only [stdenvBody]
    rw [h]
    simp [hp]

/-- C10 witness: with a failing resolver, `Stdenv` returns the unlocked base
reference instead of an error. -/
theorem stdenv_total_fallback_witness :
    (stdenvF fetchErrOracle 1 emptyLockFile).1 =
      emptyLockFile.project.stdenv :=
  (stdenv_total_fallback fetchErrOracle 0 emptyLockFile).1
    "resolver failure" emptyLockFile 1 rfl

/-! ## Tidy (lockfile.go lines 206–212) -/

/-- The keep-set of `Tidy`: the project's declared package specs together
with the previously-declared-but-removed trigger packages (one Go method
returns both), plus the base environment reference string. -/
def keepList (f : File) : List String :=
  f.project.allPackageNamesIncludingRemovedTriggerPackages ++
    [f.project.stdenv.str]

/-- Embedded `Tidy`: delete every packages-map entry whose key is not in the keep-set
(`maps.DeleteFunc` with `!slices.Contains(keep, key)`).  Pure in-memory; no
file write is modelled because the source performs none. -/
def Tidy (f : File) : File :=
  { f with packages := f.packages.filter (fun kv => (keepList f).contains kv.1) }

theorem lookupPkg_filter_contains (l : List (String × Package))
    (keep : List String) (k : String) :
    lookupPkg (l.filter (fun kv => keep.contains kv.1)) k =
      if keep.contains k then lookupPkg l k else none := by
  induction l with
  | nil => simp [lookupPkg]
  | cons hd t ih =>
    obtain ⟨a, b⟩ := hd
    by_cases hak : a = k
    · subst hak
      by_cases hc : a ∈ keep
      · simp [List.filter, lookupPkg, hc, ih]
      · simp only [List.filter, lookupPkg]
        simp [hc]
        simpa [hc] using ih
    · by_cases hc : a ∈ keep
      · simp [List.filter, lookupPkg, hc, hak]
        simpa using ih
      · simp [List.filter, lookupPkg, hc, hak]
        simpa using ih

/-- The concrete lock file of the C9 example: packages
`{"foo@1", "bar", "nixpkgs#stdenv"}`, declared set `{"foo@1"}`, base
reference `"nixpkgs#stdenv"`. -/
def tidyExampleFile : File :=
  { project :=
      { projectDir := "/proj"
        stdenv := ⟨"nixpkgs#stdenv"⟩
        allPackageNamesIncludingRemovedTriggerPackages := ["foo@1"] }
    LockFileVersion := "1"
    packages :=
      [("foo@1", { Resolved := "github:NixOS/nixpkgs/abc#foo" }),
       ("bar", { Resolved := "github:NixOS/nixpkgs/abc#bar" }),
       ("nixpkgs#stdenv", { Resolved := "github:NixOS/nixpkgs/abc" })] }

/-- C9: `Tidy` keeps exactly the entries whose key is in
declared ∪ trigger ∪ {base reference} (unchanged), deletes the rest, touches
nothing but the packages map, and on the spec's example leaves exactly
`foo@1` and `nixpkgs#stdenv`. -/
theorem tidy_removes_exactly_non_kept :
    (∀ f : File, (Tidy f).project = f.project ∧
        (Tidy f).LockFileVersion = f.LockFileVersion) ∧
      (∀ (f : File) (k : String),
        lookupPkg (Tidy f).packages k =
          if (keepList f).contains k then lookupPkg f.packages k else none) ∧
      (Tidy tidyExampleFile).packages =
        [("foo@1", { Resolved := "github:NixOS/nixpkgs/abc#foo" }),
         ("nixpkgs#stdenv", { Resolved := "github:NixOS/nixpkgs/abc" })] := by
  refine ⟨fun f => ⟨rfl, rfl⟩, fun f k => ?_, by decide⟩
  exact lookupPkg_filter_contains f.packages (keepList f) k

/-! ## GetFile, isDirty, Save (lockfile.go lines 37–56, 118–142, 249–267)

`cuecfg.ParseFile` (structured decode) and `cachehash.JSON` (content hash)
live outside `src/`; they are modelled as oracles: the filesystem is a
function from path to a parse outcome, and the hash is an arbitrary
`File → Except String String` function.  `ensurePackagesHaveOutputs` is
repository code not under `src/`, modelled from the spec (§3, §4.1): legacy
single-path data is normalized into `outputs` in memory, with the transient
flag set. -/

/-- Outcome of `cuecfg.ParseFile` on the lockfile path: file absent, decode
failure, or the decoded version string and packages map. -/
inductive ParseOutcome where
  | notExist
  | failure (msg : String)
  | success (lockFileVersion : String) (packages : List (String × Package))

/-- Lockfile path `filepath.Join(projectDir, "devbox.lock")`. -/
def lockFilePath (projectDir : String) : String :=
  projectDir ++ "/devbox.lock"

/-- Constant `lockFileVersion = "1"` (lockfile.go line 25). -/
def lockFileVersion : String := "1"

/-- Modelled from the spec: normalize a legacy single-path `SystemInfo` by
deriving `Outputs` from `StorePath`, marking the transient flag. -/
def ensureSystemInfoHasOutputs (si : SystemInfo) : SystemInfo :=
  if si.Outputs = [] ∧ si.StorePath ≠ "" then
    { si with
      Outputs := [{ name := "out", path := si.StorePath }]
      outputIsFromStorePath := true }
  else si

/-- Modelled from the spec: `ensurePackagesHaveOutputs` over the whole map. -/
def ensurePackagesHaveOutputs (pkgs : List (String × Package)) :
    List (String × Package) :=
  pkgs.map fun kv =>
    (kv.1,
     { kv.2 with
       Systems := kv.2.Systems.map fun sv =>
         (sv.1, ensureSystemInfoHasOutputs sv.2) })

/-- Embedded `GetFile`: build a fresh versioned file, decode the on-disk lockfile into
it; absence is not an error, any other decode failure propagates; on success
legacy store paths are normalized into outputs. -/
def GetFile (disk : String → ParseOutcome) (project : DevboxProject) :
    Except String File :=
  match disk (lockFilePath project.projectDir) with
  | .notExist =>
    .ok { project := project, LockFileVersion := lockFileVersion, packages := [] }
  | .failure msg => .error msg
  | .success v pkgs =>
    .ok { project := project, LockFileVersion := v,
          packages := ensurePackagesHaveOutputs pkgs }

/-- Embedded `isDirty`: hash the in-memory struct, reload and hash the on-disk
struct, propagate every error, compare. -/
def isDirty (hash : File → Except String String)
    (disk : String → ParseOutcome) (f : File) : Except String Bool :=
  match hash f with
  | .error e => .error e
  | .ok currentHash =>
    match GetFile disk f.project with
    | .error e => .error e
    | .ok fileSystemLockFile =>
      match hash fileSystemLockFile with
      | .error e => .error e
      | .ok filesystemHash => .ok (currentHash != filesystemHash)

/-- In `SystemInfo`, preserve the legacy `StorePath` field and clear out
modern `Outputs` before writing (Save, lines 130–136). -/
def stripStorePathOutputs (f : File) : File :=
  { f with
    packages := f.packages.map fun kv =>
      (kv.1,
       { kv.2 with
         Systems := kv.2.Systems.map fun sv =>
           (sv.1,
            if sv.2.outputIsFromStorePath then { sv.2 with Outputs := [] }
            else sv.2) }) }

/-- Embedded `Save`: dirty-check first (propagating its errors); when clean, return
without writing; when dirty, write the stripped file (the written content is
returned as `some`; `none` means no write occurred) and rehydrate outputs in
memory afterwards.  The external serializer's own write is out of scope and
modelled as always succeeding. -/
def save (hash : File → Except String String)
    (disk : String → ParseOutcome) (f : File) :
    Except String (File × Option File) :=
  match isDirty hash disk f with
  | .error e => .error e
  | .ok false => .ok (f, none)
  | .ok true =>
    let stripped := stripStorePathOutputs f
    .ok ({ stripped with packages := ensurePackagesHaveOutputs stripped.packages },
         some stripped)

/-- C4: `Save` hashes the in-memory struct and the freshly reloaded on-disk
struct; equal hashes mean no write and an unchanged file; every
hash-computation or reload error propagates and is never treated as "not
dirty". -/
theorem save_no_write_when_clean_and_propagates_errors
    (hash : File → Except String String) (disk : String → ParseOutcome)
    (f : File) :
    (∀ e, hash f = .error e → save hash disk f = .error e) ∧
    (∀ h e, hash f = .ok h → GetFile disk f.project = .error e →
        save hash disk f = .error e) ∧
    (∀ h g e, hash f = .ok h → GetFile disk f.project = .ok g →
        hash g = .error e → save hash disk f = .error e) ∧
    (∀ h g, hash f = .ok h → GetFile disk f.project = .ok g →
        hash g = .ok h → save hash disk f = .ok (f, none)) := by
  refine ⟨?_, ?_, ?_, ?_⟩
  · intro e he
    simp [save, isDirty, he]
  · intro h e hh hg
    simp [save, isDirty, hh, hg]
  · intro h g e hh hg hge
    simp [save, isDirty, hh, hg, hge]
  · intro h g hh hg hgh
    simp [save, isDirty, hh, hg, hgh]

/-- The disk contents matching `resolvedEntryFile` (no legacy store paths, so
reload is the identity on the packages). -/
def resolvedEntryDisk : String → ParseOutcome := fun path =>
  if path = "/proj/devbox.lock" then
    .success "1"
      [("python3@3.10",
        { Resolved := "github:NixOS/nixpkgs/abc#python3",
          Source := "devbox-search" })]
  else .notExist

/-- A content hash oracle for the witness: the number of map entries,
rendered in decimal. -/
def entryCountHash : File → Except String String :=
  fun f => .ok (toString f.packages.length)

/-- C4 witness: with equal in-memory and on-disk hashes, `Save` returns the
file unchanged and performs no write. -/
theorem save_no_write_when_clean_witness :
    save entryCountHash resolvedEntryDisk resolvedEntryFile =
      .ok (resolvedEntryFile, none) :=
  (save_no_write_when_clean_and_propagates_errors entryCountHash
      resolvedEntryDisk resolvedEntryFile).2.2.2 "1"
    { project := resolvedEntryFile.project
      LockFileVersion := "1"
      packages := resolvedEntryFile.packages }
    rfl rfl rfl

/-! ## Authorization-header redaction (github.go lines 173–190)

The source reads the header value off the request; the model takes the header
value directly.  Go's byte-level `len` and slicing are modelled over the
character list (exact for ASCII header values). -/

/-- Embedded `getRedactedAuthHeader`, over the header value's characters. -/
def redactCore (authHeader : List Char) : List Char :=
  let parts := splitN2 authHeader
  if authHeader.length < 10 ∨ parts.length < 2 then
    -- too short to safely reveal any part
    starsL authHeader.length
  else
    let authType := parts.headD []
    let token := (parts.drop 1).headD []
    if token.length < 10 then
      -- second word too short to reveal any, but show first word
      authType ++ ' ' :: starsL token.length
    else
      -- show first 4 chars of token to help with debugging
      authType ++ ' ' :: (token.take 4 ++ starsL (token.length - 4))

/-- Embedded `getRedactedAuthHeader` on the header value as a string. -/
def getRedactedAuthHeader (authHeader : String) : String :=
  ⟨redactCore authHeader.data⟩

theorem redactCore_cut_none {s : List Char} (h : cutChar ' ' s = none) :
    redactCore s = starsL s.length := by
  unfold redactCore splitN2
  rw [h]
  simp

theorem redactCore_cut_some {s ty tok : List Char}
    (h : cutChar ' ' s = some (ty, tok)) :
    redactCore s =
      if s.length < 10 then starsL s.length
      else if tok.length < 10 then ty ++ ' ' :: starsL tok.length
      else ty ++ ' ' :: (tok.take 4 ++ starsL (tok.length - 4)) := by
  unfold redactCore splitN2
  rw [h]
  by_cases hlen : s.length < 10
  · simp [hlen]
  · simp [hlen]

/-- C6: the redaction function masks everything for short or structureless
values, reveals the scheme and masks short tokens entirely, reveals only the
first 4 characters of long tokens, and in every structured case the token
part of the output is a ≤4-character prefix of the token followed by mask
characters. -/
theorem redaction_reveals_at_most_four (s : String) :
    (s.length < 10 → getRedactedAuthHeader s = ⟨starsL s.length⟩) ∧
    (cutChar ' ' s.data = none →
        getRedactedAuthHeader s = ⟨starsL s.length⟩) ∧
    (∀ ty tok, cutChar ' ' s.data = some (ty, tok) → ¬ s.length < 10 →
        tok.length < 10 →
        getRedactedAuthHeader s = ⟨ty ++ ' ' :: starsL tok.length⟩) ∧
    (∀ ty tok, cutChar ' ' s.data = some (ty, tok) → ¬ s.length < 10 →
        ¬ tok.length < 10 →
        getRedactedAuthHeader s =
          ⟨ty ++ ' ' :: (tok.take 4 ++ starsL (tok.length - 4))⟩) ∧
    (∀ ty tok, cutChar ' ' s.data = some (ty, tok) →
        ∃ k, k ≤ 4 ∧
          ((getRedactedAuthHeader s).data = starsL s.length ∨
            (getRedactedAuthHeader s).data =
              ty ++ ' ' :: (tok.take k ++ starsL (tok.length - k)))) := by
  refine ⟨?_, ?_, ?_, ?_, ?_⟩
  · intro hlen
    unfold getRedactedAuthHeader
    cases hcut : cutChar ' ' s.data with
    | none =>
      rw [redactCore_cut_none hcut]
      simp
    | some p =>
      obtain ⟨ty, tok⟩ := p
      rw [redactCore_cut_some hcut]
      simp [hlen]
  · intro hcut
    unfold getRedactedAuthHeader
    rw [redactCore_cut_none hcut]
    simp
  · intro ty tok hcut hlen htok
    unfold getRedactedAuthHeader
    rw [redactCore_cut_some hcut]
    simp [hlen, htok]
  · intro ty tok hcut hlen htok
    unfold getRedactedAuthHeader
    rw [redactCore_cut_some hcut]
    simp [hlen, htok]
  · intro ty tok hcut
    unfold getRedactedAuthHeader
    rw [redactCore_cut_some hcut]
    by_cases hlen : s.length < 10
    · exact ⟨0, by norm_num, Or.inl (by simp [hlen])⟩
    · by_cases htok : tok.length < 10
      · refine ⟨0, by norm_num, Or.inr ?_⟩
        simp [hlen, htok]
      · refine ⟨4, le_refl 4, Or.inr ?_⟩
        simp [hlen, htok]

/-- C6 witness: a Bearer header with an 18-character token reveals the scheme
and exactly the first 4 token characters. -/
theorem redaction_reveals_at_most_four_witness :
    getRedactedAuthHeader "Bearer abcdefghij12345678" =
      ⟨"Bearer".data ++ ' ' :: ("abcdefghij12345678".data.take 4 ++ starsL 14)⟩ :=
  (redaction_reveals_at_most_four "Bearer abcdefghij12345678").2.2.2.1
    "Bearer".data "abcdefghij12345678".data (by decide) (by decide) (by decide)

/-- C7 counterexample: redacting `"token ghp_1234567890abcd"` does not give
the claim's 10-star string, because the token has 18 characters, so 14 mask
characters remain after revealing the first 4. -/
theorem redact_token_example_not_ten_stars :
    getRedactedAuthHeader "token ghp_1234567890abcd" ≠
      "token ghp_**********" := by
  decide

/-- C7 (amended): redacting `"token ghp_1234567890abcd"` yields exactly
`"token ghp_**************"` — scheme kept, first 4 token characters kept,
and the remaining 14 token characters masked. -/
theorem redact_token_example_fourteen_stars :
    getRedactedAuthHeader "token ghp_1234567890abcd" =
      "token ghp_**************" := by
  decide

/-! ## Plugin content fetch (github.go lines 68–132)

`filecache.GetOrSet` is modelled from the spec (§4.3 Remote Content Cache
contract): a key→bytes store with per-entry absolute expiry; a hit returns
the stored value, a miss runs the compute function and stores its value with
`expiry = now + ttl`.  `time.ParseDuration` and the HTTP transport are
oracles; the transport invocation count is returned so "zero network calls"
is provable.  Durations are nanosecond counts, as in Go. -/

/-- A flake reference to a GitHub-hosted plugin directory, with the fields
used by `githubPlugin.url` (owner, repo, ref, rev, dir). -/
structure GhRef where
  owner : String := ""
  repo : String := ""
  ref : String := ""
  rev : String := ""
  dir : String := ""
deriving DecidableEq, Repr

/-- Model of the `githubPlugin` struct: reference plus derived canonical name. -/
structure GithubPlugin where
  ref : GhRef := {}
  name : String := ""
deriving DecidableEq, Repr

/-- Go `cmp.Or` over three strings: the first non-empty one. -/
def cmpOr3 (a b c : String) : String :=
  if a ≠ "" then a else if b ≠ "" then b else c

/-- Go `url.JoinPath`: join the base URL and the path elements with `/`,
dropping empty segments (Go's path cleaning collapses the duplicate slashes
empty segments would create). -/
def joinPath (base : String) (elems : List String) : String :=
  String.intercalate "/"
    ((if base.endsWith "/" then base.dropRight 1 else base) ::
      elems.filter (· ≠ ""))

/-- Embedded `githubPlugin.url(subpath)` (github.go lines 134–145): raw content URL
with `rev`-or-`ref`-or-`"master"` branch selection. -/
def ghURL (p : GithubPlugin) (subpath : String) : String :=
  joinPath "https://raw.githubusercontent.com/"
    [p.ref.owner, p.ref.repo, cmpOr3 p.ref.rev p.ref.ref "master",
     p.ref.dir, subpath]

/-- Modelled from the spec: one remote-content cache entry (key, bytes,
absolute expiry). -/
structure CacheEntry where
  key : String
  value : String
  expiresAt : Nat
deriving DecidableEq, Repr

/-- Modelled from the spec: cache read — a stored, unexpired value for the
key. -/
def cacheLookup (entries : List CacheEntry) (now : Nat) (key : String) :
    Option String :=
  match entries.find? (fun e => e.key == key && decide (now < e.expiresAt)) with
  | some e => some e.value
  | none => none

/-- Result of one HTTP transport round-trip. -/
inductive NetResult where
  | success (body : String)
  | httpStatus (code : Nat)
  | failure (msg : String)

/-- Default `ttl := 24 * time.Hour` in nanoseconds. -/
def defaultTTL : Nat := 86400000000000

/-- The auth-context sentence of the non-200 diagnostic (github.go lines
108–114): the request carries `Authorization: token {ghToken}` when the
token is non-empty. -/
def authInfoMsg (ghToken : String) : String :=
  if ghToken ≠ "" then
    "The auth header `" ++ getRedactedAuthHeader ("token " ++ ghToken) ++
      "` was sent with this request."
  else "No auth header was sent with this request."

/-- Embedded `githubPlugin.FileContent(subpath)`: compute the content URL, resolve the
TTL (24h default, overridden by the environment string when non-empty, a
malformed override failing before any cache or network activity), then
`GetOrSet` with key `contentURL + ttlStr`.  Returns
`(result, cache after the call, number of transport calls)`. -/
def FileContent (p : GithubPlugin) (subpath : String) (ttlStr : String)
    (ghToken : String) (parseDuration : String → Except String Nat)
    (net : String → NetResult) (cache : List CacheEntry) (now : Nat) :
    Except String String × List CacheEntry × Nat :=
  let contentURL := ghURL p subpath
  let ttlE : Except String Nat :=
    if ttlStr ≠ "" then parseDuration ttlStr else .ok defaultTTL
  match ttlE with
  | .error e => (.error e, cache, 0)
  | .ok ttl =>
    let key := contentURL ++ ttlStr
    match cacheLookup cache now key with
    | some v => (.ok v, cache, 0)
    | none =>
      match net contentURL with
      | .failure e => (.error e, cache, 1)
      | .httpStatus code =>
        (.error
          ("failed to get plugin " ++ p.name ++ " @ " ++ contentURL ++
            " (Status code " ++ toString code ++ ").\n" ++
            authInfoMsg ghToken ++
            "\nPlease make sure a plugin.json file exists in plugin directory."),
         cache, 1)
      | .success body =>
        (.ok body, cache ++ [{ key := key, value := body, expiresAt := now + ttl }], 1)

/-- C8: the TTL defaults to 24 hours; a non-empty malformed override makes
`FileContent` fail before any network request or cache read/write (zero
transport calls, cache unchanged, no fallback to the default); and the cache
key is the content URL concatenated with the raw override string, both on
hits and on stores. -/
theorem filecontent_ttl_and_cache_key
    (p : GithubPlugin) (subpath ttlStr ghToken : String)
    (parseDuration : String → Except String Nat) (net : String → NetResult)
    (cache : List CacheEntry) (now : Nat) :
    (∀ e, ttlStr ≠ "" → parseDuration ttlStr = .error e →
        FileContent p subpath ttlStr ghToken parseDuration net cache now =
          (.error e, cache, 0)) ∧
    (∀ body, ttlStr = "" →
        cacheLookup cache now (ghURL p subpath) = none →
        net (ghURL p subpath) = .success body →
        FileContent p subpath ttlStr ghToken parseDuration net cache now =
          (.ok body,
           cache ++ [{ key := ghURL p subpath, value := body,
                       expiresAt := now + defaultTTL }], 1)) ∧
    (∀ d body, ttlStr ≠ "" → parseDuration ttlStr = .ok d →
        cacheLookup cache now (ghURL p subpath ++ ttlStr) = none →
        net (ghURL p subpath) = .success body →
        FileContent p subpath ttlStr ghToken parseDuration net cache now =
          (.ok body,
           cache ++ [{ key := ghURL p subpath ++ ttlStr, value := body,
                       expiresAt := now + d }], 1)) ∧
    (∀ d v, ttlStr ≠ "" → parseDuration ttlStr = .ok d →
        cacheLookup cache now (ghURL p subpath ++ ttlStr) = some v →
        FileContent p subpath ttlStr ghToken parseDuration net cache now =
          (.ok v, cache, 0)) := by
  refine ⟨?_, ?_, ?_, ?_⟩
  · intro e hne hpe
    simp [FileContent, hne, hpe]
  · intro body hempty hmiss hnet
    subst hempty
    simp [FileContent, hmiss, hnet]
  · intro d body hne hpd hmiss hnet
    simp [FileContent, hne, hpd, hmiss, hnet]
  · intro d v hne hpd hhit
    simp [FileContent, hne, hpd, hhit]

/-- The concrete plugin of the C8 witness. -/
def witnessPlugin : GithubPlugin :=
  { ref := { owner := "acme", repo := "plugins", dir := "mariadb" }
    name := "acme.plugins.mariadb" }

/-- A duration parser oracle that rejects every string. -/
def rejectAllDurations : String → Except String Nat :=
  fun s => .error ("time: invalid duration " ++ s)

/-- A transport oracle for the witness. -/
def constNet : String → NetResult := fun _ => .success "body"

/-- C8 witness: the malformed override `"not-a-duration"` errors with zero
transport calls and an unchanged (empty) cache. -/
theorem filecontent_ttl_and_cache_key_witness :
    FileContent witnessPlugin "plugin.json" "not-a-duration" ""
        rejectAllDurations constNet [] 0 =
      (.error "time: invalid duration not-a-duration", [], 0) :=
  (filecontent_ttl_and_cache_key witnessPlugin "plugin.json" "not-a-duration"
      "" rejectAllDurations constNet [] 0).1
    "time: invalid duration not-a-duration" (by decide) rfl

end Devbox
